import Mathlib

/-!
Verification of the PhotoLab photo-to-participant correlation pipeline.

This file gives a shallow embedding, in Lean 4, of the parts of the
PhotoLab Electron application that the specification talks about:

* the IPC photo-copy handlers `assign-photos-to-participant` and
  `save-ungrouped-photos` of `src/main/main.js`;
* the `process-photos` orchestrator handler of `src/main/main.js`
  (config-file write, worker spawn, stdout/stderr progress
  classification, and the `close` handler with its sentinel-payload
  extraction);
* the reconciliation callbacks `handleMoveSelectedToUngrouped` and
  `handleAssignPhotos` of the Results page component;
* `saveProcessingResults` together with the `processing_results` table
  schema of `src/main/database.js`;
* the Correlation Engine of the external Python worker (not part of the
  source snapshot), modelled from the specification.

Filesystem effects are modelled by a `copyOk` oracle saying which source
paths copy successfully; directory creation (`fs.mkdir` with
`recursive: true`) is assumed to succeed, since every claim below is
about the per-item copy loops and result shapes, not about the outer
catch that a mkdir failure would exit through.  A JavaScript falsy
string field (absent, `null`, or `""`) is modelled as `none`.
-/

namespace PhotoLab

/-! ## Photo arguments and path helpers -/

/-- A photo value as passed over IPC to the copy handlers: either a bare
string path, or an object carrying optional `path` / `file_path`
fields (`none` models a JS-falsy value). -/
inductive PhotoArg where
  | str (s : String)
  | obj (path fpath : Option String)
deriving DecidableEq, Repr

/-- Source-path resolution of the `assign-photos-to-participant` loop:
`typeof photo === "string" ? photo : (photo.path || photo.file_path)`. -/
def resolveAssign : PhotoArg → Option String
  | .str s => some s
  | .obj p fp => p.orElse fun _ => fp

/-- Source-path resolution of the `save-ungrouped-photos` loop:
`typeof photo === "string" ? photo : (photo.file_path || photo.path)`. -/
def resolveUngrouped : PhotoArg → Option String
  | .str s => some s
  | .obj p fp => fp.orElse fun _ => p

/-- Split a character list at every separator character recognised by
`sep`; always returns at least one (possibly empty) component. -/
def splitOnPred (sep : Char → Bool) : List Char → List (List Char)
  | [] => [[]]
  | c :: rest =>
    match splitOnPred sep rest with
    | [] => [[]]
    | l :: ls => if sep c then [] :: l :: ls else (c :: l) :: ls

/-- `path.basename`: the final path component, after the last `/` or
`\` separator. -/
def basename (s : String) : String :=
  String.mk ((splitOnPred (fun c => c = '/' || c = '\\') s.toList).getLastD [])

/-- `path.join`, modelled as separator concatenation (path
normalisation is irrelevant to the claims below). -/
def pathJoin (a b : String) : String :=
  a ++ "/" ++ b

/-! ## IPC handler `assign-photos-to-participant` (main.js 826-873) -/

/-- Result object of `assign-photos-to-participant`: `success`, the
`moved` list of `{from, to}` pairs, and the `errors` list recording the
resolved source path of each failed copy. -/
structure AssignResults where
  success : Bool
  moved : List (String × String)
  errors : List String
deriving DecidableEq, Repr

/-- The per-photo loop of `assign-photos-to-participant`: entries with
no resolvable path are skipped (`continue`); a successful copy appends
to `moved`; a failed copy appends the resolved path to `errors`. -/
def assignLoop (copyOk : String → Bool) (folder : String) :
    List PhotoArg → List (String × String) × List String
  | [] => ([], [])
  | photo :: rest =>
    let r := assignLoop copyOk folder rest
    match resolveAssign photo with
    | none => r
    | some p =>
      if copyOk p then ((p, pathJoin folder (basename p)) :: r.1, r.2)
      else (r.1, p :: r.2)

/-- The `assign-photos-to-participant` handler body: copy each photo
into `destinationFolder/participant`, then set
`success = errors.length === 0`. -/
def assignPhotosToParticipant (copyOk : String → Bool)
    (destinationFolder participant : String) (photos : List PhotoArg) :
    AssignResults :=
  let folder := pathJoin destinationFolder participant
  let r := assignLoop copyOk folder photos
  { success := r.2.isEmpty, moved := r.1, errors := r.2 }

/-- The Results-page callback `handleAssignPhotos`: guarded by a
non-empty target participant and a non-empty selection, it calls the
`assign-photos-to-participant` handler and, only when the whole batch
reports `success`, filters every selected photo out of the ungrouped
list; otherwise the ungrouped list is left unchanged. -/
def handleAssignPhotos (copyOk : String → Bool) (ungrouped : List PhotoArg)
    (selected : List PhotoArg) (targetParticipant : Option String)
    (destFolder : String) : List PhotoArg :=
  match targetParticipant with
  | none => ungrouped
  | some participant =>
    if selected.length = 0 then ungrouped
    else
      let r := assignPhotosToParticipant copyOk destFolder participant selected
      if r.success then ungrouped.filter (fun p => !(selected.contains p))
      else ungrouped

/-! ## IPC handler `save-ungrouped-photos` (main.js 434-459) -/

/-- Result object of `save-ungrouped-photos`: `success`, the `moved`
list of `{from, to}` pairs, and the `errors` list recording the photo
argument of each failed copy. -/
structure SaveResults where
  success : Bool
  moved : List (String × String)
  errors : List PhotoArg
deriving DecidableEq, Repr

/-- Outcome of `save-ungrouped-photos`: either the early
missing-destination error object, or a full result. -/
inductive SaveOutcome where
  | failed (error : String)
  | ok (r : SaveResults)
deriving DecidableEq, Repr

/-- The destination folder of the ungrouped copies:
`path.join(destinationFolder, eventName or "Evento", "Não Agrupadas")`. -/
def ungroupedDest (d : String) (eventName : Option String) : String :=
  pathJoin (pathJoin d (eventName.getD "Evento")) "Não Agrupadas"

/-- The per-photo loop of `save-ungrouped-photos`: entries with no
resolvable path are skipped (`continue`); a successful copy appends to
`moved`; a failed copy appends the whole photo argument to `errors`. -/
def saveUngroupedLoop (copyOk : String → Bool) (folder : String) :
    List PhotoArg → List (String × String) × List PhotoArg
  | [] => ([], [])
  | photo :: rest =>
    let r := saveUngroupedLoop copyOk folder rest
    match resolveUngrouped photo with
    | none => r
    | some sp =>
      if copyOk sp then ((sp, pathJoin folder (basename sp)) :: r.1, r.2)
      else (r.1, photo :: r.2)

/-- The `save-ungrouped-photos` handler body: reject a missing
destination folder, copy each photo by basename into the dedicated
ungrouped folder, then set `success = errors.length === 0`. -/
def saveUngroupedPhotos (copyOk : String → Bool)
    (destinationFolder : Option String) (eventName : Option String)
    (ungroupedPhotos : List PhotoArg) : SaveOutcome :=
  match destinationFolder with
  | none => .failed "Destination folder missing"
  | some d =>
    let folder := ungroupedDest d eventName
    let r := saveUngroupedLoop copyOk folder ungroupedPhotos
    .ok { success := r.2.isEmpty, moved := r.1, errors := r.2 }

/-! ## `saveProcessingResults` vs the created schema (database.js) -/

/-- Columns of the `processing_results` table as created by
`createTables` in `src/main/database.js` (lines 71-82). -/
def processingResultsColumns : List String :=
  ["id", "project_id", "stage", "results", "status", "error_message",
   "created_at"]

/-- Columns named by the INSERT statement of `saveProcessingResults`
in `src/main/database.js` (lines 433-446). -/
def saveProcessingInsertColumns : List String :=
  ["project_id", "total_photos", "qr_detected", "grouped_photos",
   "ungrouped_photos", "processing_time", "results_data"]

/-- The persistent state touched by `saveProcessingResults`: the rows
of `processing_results` and the ids of projects whose `updated_at`
timestamp was rewritten. -/
structure Database where
  processingRows : List (List (String × String))
  projectsTouched : List Nat
deriving DecidableEq, Repr

/-- SQLite INSERT into `processing_results`: errors (is rejected by the
engine) unless every named column exists in the created table. -/
def insertProcessingResults (db : Database)
    (row : List (String × String)) : Except String Database :=
  if (row.map Prod.fst).all (fun c => processingResultsColumns.contains c) then
    .ok { db with processingRows := db.processingRows ++ [row] }
  else
    .error "table processing_results has no such column"

/-- The argument object destructured by `saveProcessingResults`;
values are kept as strings, `JSON.stringify` modelled as identity. -/
structure ProcResultsInput where
  totalImages : String
  qrDetected : String
  groupedPhotos : String
  ungroupedPhotos : String
  processingTime : String
  detailedResults : String
deriving DecidableEq, Repr

/-- Shape of the value returned by `saveProcessingResults`. -/
structure DbCallResult where
  success : Bool
  error : Option String
deriving DecidableEq, Repr

/-- `saveProcessingResults(projectId, results)`: attempt the INSERT
with the columns of `saveProcessingInsertColumns`; on success also
touch the project timestamp; any error is caught and turned into
`{success: false}`.  Returns the new database state and the result. -/
def saveProcessingResults (db : Database) (projectId : Nat)
    (results : ProcResultsInput) : Database × DbCallResult :=
  match insertProcessingResults db
      (saveProcessingInsertColumns.zip
        [toString projectId, results.totalImages, results.qrDetected,
         results.groupedPhotos, results.ungroupedPhotos,
         results.processingTime, results.detailedResults]) with
  | .error e => (db, { success := false, error := some e })
  | .ok db1 =>
    ({ db1 with projectsTouched := db1.projectsTouched ++ [projectId] },
     { success := true, error := none })

/-! ## Orchestrator: the `process-photos` handler (main.js 875-1039) -/

/-- A participant object of the run configuration. -/
structure Participant where
  name : String
  turma : String
  qrCode : String
deriving DecidableEq, Repr

/-- The config object the renderer passes to `process-photos`
(`none` models a JS-falsy field). -/
structure ProcessConfig where
  sourceFolder : Option String
  destinationFolder : Option String
  participants : List Participant
  eventName : Option String
deriving DecidableEq, Repr

/-- Observable actions the `process-photos` handler performs before any
worker output arrives. -/
inductive OrchestratorAction where
  | writeConfigFile (cfg : ProcessConfig)
  | spawnWorker
deriving DecidableEq, Repr

/-- The pre-spawn action trace of `process-photos`: the handler
unconditionally writes the temp config file (resolving an error result
if the write fails) and, when the write succeeds, spawns the Python
worker.  No field of the config is inspected first. -/
def processPhotosPreSpawnTrace (cfg : ProcessConfig) (writeOk : Bool) :
    List OrchestratorAction :=
  if writeOk then [.writeConfigFile cfg, .spawnWorker]
  else [.writeConfigFile cfg]

/-- Find the first occurrence of `marker` in a character list,
returning the text before it and the text after it. -/
def listSplitFirst (marker : List Char) :
    List Char → Option (List Char × List Char)
  | [] => none
  | c :: rest =>
    if marker.isPrefixOf (c :: rest) then
      some ([], (c :: rest).drop marker.length)
    else
      match listSplitFirst marker rest with
      | some (pre, post) => some (c :: pre, post)
      | none => none

/-- JS `String.prototype.includes`. -/
def containsMarker (s m : String) : Bool :=
  (listSplitFirst m.toList s.toList).isSome

/-- Whitespace as trimmed by JS `String.prototype.trim`. -/
def isJsWhitespace (c : Char) : Bool :=
  c = ' ' || c = '\n' || c = '\t' || c = '\r'

/-- JS `String.prototype.trim`. -/
def jsTrim (s : String) : String :=
  String.mk
    (((s.toList.dropWhile isJsWhitespace).reverse.dropWhile
      isJsWhitespace).reverse)

/-- The regex `==JSON_START==([\s\S]*?)==JSON_END==` applied to the
captured stdout: the captured group is the text between the first
`==JSON_START==` and the first `==JSON_END==` after it, if both
occur. -/
def extractSentinelPayload (output : String) : Option String :=
  match listSplitFirst "==JSON_START==".toList output.toList with
  | none => none
  | some (_, afterStart) =>
    match listSplitFirst "==JSON_END==".toList afterStart with
    | none => none
    | some (captured, _) => some (String.mk captured)

/-- The value the `process-photos` promise resolves with from the
`close` handler.  Every branch resolves — the model is a total
function, mirroring that the handler never rejects or throws. -/
inductive CloseResult where
  | parsed (payload : String)
  | noSentinel (error : String) (rawOutput : String)
  | parseFailed (error : String) (rawOutput : String)
  | workerFailed (error : String) (details : String) (rawOutput : String)
deriving DecidableEq, Repr

/-- The error string of a `CloseResult`, when it is an error. -/
def CloseResult.isError : CloseResult → Bool
  | .parsed _ => false
  | _ => true

/-- The `raw_output` field attached to a `CloseResult`. -/
def CloseResult.raw : CloseResult → Option String
  | .parsed _ => none
  | .noSentinel _ r => some r
  | .parseFailed _ r => some r
  | .workerFailed _ _ r => some r

/-- The `close` handler of `process-photos` (main.js 957-1009), with
`JSON.parse` modelled by the oracle `parseOk`: on exit code 0, extract
the sentinel-delimited payload (an absent or empty capture takes the
`No valid JSON result found` branch; JS `if (jsonMatch && jsonMatch[1])`
treats an empty capture as falsy), trim and parse it; a parse exception
is caught and resolved as an error carrying the raw output; a nonzero
exit code resolves an error carrying stderr and the raw output. -/
def onClose (parseOk : String → Bool) (code : Int)
    (outputData errorData : String) : CloseResult :=
  if code = 0 then
    match extractSentinelPayload outputData with
    | some s =>
      if s = "" then
        .noSentinel "No valid JSON result found in output" outputData
      else if parseOk (jsTrim s) then .parsed (jsTrim s)
      else .parseFailed "Failed to parse processing results" outputData
    | none => .noSentinel "No valid JSON result found in output" outputData
  else
    .workerFailed ("Processing failed with exit code " ++ toString code)
      errorData outputData

/-- A progress event sent to the renderer via `processing-progress`. -/
structure ProgressEvent where
  stage : String
  message : String
  percentage : Option Nat
deriving DecidableEq, Repr

/-- Classification of one stdout line (main.js 903-913): lines
containing `[QR_DETECTION]` or `[GROUPING]` become progress events with
no percentage. -/
def classifyStdoutLine (line : String) : Option ProgressEvent :=
  if containsMarker line "[QR_DETECTION]" then
    some ⟨"qr_detection", line, none⟩
  else if containsMarker line "[GROUPING]" then
    some ⟨"grouping", line, none⟩
  else none

/-- All progress events emitted for one stdout chunk, in line order. -/
def processStdoutChunk (chunk : String) : List ProgressEvent :=
  ((splitOnPred (fun c => c = '\n') chunk.toList).map String.mk).filterMap
    classifyStdoutLine

/-- Classification of one stderr chunk (main.js 917-954): the if/else
chain tests the whole chunk (not individual lines) and emits at most
one event, with a percentage fixed by the first matching class. -/
def classifyStderrChunk (output : String) : Option ProgressEvent :=
  if containsMarker output "Step 1:" || containsMarker output "Detecting QR codes" then
    some ⟨"qr_detection", "Detectando QR codes...", some 10⟩
  else if containsMarker output "Step 2:" || containsMarker output "Grouping photos" then
    some ⟨"grouping", "Agrupando fotos...", some 50⟩
  else if containsMarker output "Step 3:" || containsMarker output "Copying photos" then
    some ⟨"copying", "Copiando fotos...", some 75⟩
  else if containsMarker output "QR detected" then
    some ⟨"qr_detection", jsTrim output, some 25⟩
  else if containsMarker output "Copied" && containsMarker output "folder" then
    some ⟨"copying", jsTrim output, some 85⟩
  else none

/-- All progress events emitted for a sequence of stderr chunks, in
chunk arrival order. -/
def processStderrChunks (chunks : List String) : List ProgressEvent :=
  chunks.filterMap classifyStderrChunk

/-! ## Reconciliation: the Results page component state -/

/-- A photo record as held by the Results page (fields read by
`photoKey`; `none` models a JS-falsy field). -/
structure RPhoto where
  fpath : Option String
  path : Option String
  fname : Option String
  fnameCamel : Option String
  modifiedTime : Option String
deriving DecidableEq, Repr

/-- `photoKey(p)`: the concatenation
`(p.file_path or p.path or p.file_name or p.fileName or "") + "|" +
(p.modified_time or "")`. -/
def photoKey (p : RPhoto) : String :=
  ((((p.fpath.orElse fun _ => p.path).orElse fun _ => p.fname).orElse
      fun _ => p.fnameCamel).getD "")
    ++ "|" ++ p.modifiedTime.getD ""

/-- `isSamePhoto(a, b)`: photo identity by key equality. -/
def isSamePhoto (a b : RPhoto) : Bool :=
  photoKey a == photoKey b

/-- Truthiness of `sel.find((sp) => isSamePhoto(sp, p))`. -/
def selFind (sel : List RPhoto) (p : RPhoto) : Bool :=
  sel.any fun sp => isSamePhoto sp p

/-- Lookup `groupsState[key]`, modelling the JS object as an
association list from group key to the photo list of the group (the
other group fields, such as the participant, are untouched by the
operations below and are dropped from the model). -/
def lookupGroup : List (String × List RPhoto) → String → Option (List RPhoto)
  | [], _ => none
  | (k, ps) :: rest, key => if k = key then some ps else lookupGroup rest key

/-- The update `{...prev, [key]: {...group, photos: newPhotos}}`:
replace the photo list of the (first) entry with the given key. -/
def setGroupPhotos : List (String × List RPhoto) → String → List RPhoto →
    List (String × List RPhoto)
  | [], _, _ => []
  | (k, ps) :: rest, key, newPhotos =>
    if k = key then (k, newPhotos) :: rest
    else (k, ps) :: setGroupPhotos rest key newPhotos

/-- The component state read and written by
`handleMoveSelectedToUngrouped`. -/
structure ResultsState where
  editingGroupKey : Option String
  selectedGroupPhotos : List RPhoto
  groupsState : List (String × List RPhoto)
  ungroupedPhotos : List RPhoto
deriving DecidableEq, Repr

/-- `handleMoveSelectedToUngrouped` (Results page, lines 569-584):
guarded by a set editing key, a non-empty selection and an existing
group, it partitions the photo list of the group by membership in the
selection, keeps the non-selected remainder in the group, prepends the
selected photos to the ungrouped list, and clears the selection and the
editing key. -/
def handleMoveSelectedToUngrouped (st : ResultsState) : ResultsState :=
  match st.editingGroupKey with
  | none => st
  | some key =>
    if st.selectedGroupPhotos.length = 0 then st
    else
      match lookupGroup st.groupsState key with
      | none => st
      | some photos =>
        let remaining := photos.filter fun p => !(selFind st.selectedGroupPhotos p)
        let moved := photos.filter fun p => selFind st.selectedGroupPhotos p
        { editingGroupKey := none
          selectedGroupPhotos := []
          groupsState := setGroupPhotos st.groupsState key remaining
          ungroupedPhotos := moved ++ st.ungroupedPhotos }

/-- The total number of photos held in all groups. -/
def sumGroupSizes : List (String × List RPhoto) → Nat
  | [] => 0
  | g :: rest => g.2.length + sumGroupSizes rest

/-- The conserved quantity of the reconciliation operations:
`|ungrouped| + Σ |group.photos|`. -/
def totalPhotoCount (st : ResultsState) : Nat :=
  st.ungroupedPhotos.length + sumGroupSizes st.groupsState

/-- Concrete sample photo used to evaluate the reconciliation ops. -/
def rA : RPhoto := ⟨some "a.jpg", none, none, none, some "1"⟩

/-- Concrete sample photo used to evaluate the reconciliation ops. -/
def rB : RPhoto := ⟨some "b.jpg", none, none, none, some "2"⟩

/-- Concrete sample photo used to evaluate the reconciliation ops. -/
def rC : RPhoto := ⟨some "c.jpg", none, none, none, some "3"⟩

/-- Concrete sample state: editing group `"k"` (photos `rA`, `rB`) with
`rA` selected, a second group `"m"`, and `rC` already ungrouped. -/
def sampleMoveState : ResultsState :=
  ⟨some "k", [rA], [("k", [rA, rB]), ("m", [rC])], [rC]⟩

/-! ## Correlation Engine (modelled from the spec) -/

/-- A photo record as consumed by the Correlation Engine. -/
structure PhotoRecord where
  sourcePath : String
  captureOrder : Nat
  detectedCode : Option String
  confidence : Option Nat
  reason : Option String
deriving DecidableEq, Repr

/-- The running state of the Correlation Engine: groups keyed by the
qrCode of the owning participant (in creation order), the ungrouped
list, and the current-participant cursor. -/
structure CorrState where
  groups : List (String × List PhotoRecord)
  ungrouped : List PhotoRecord
  current : Option Participant
deriving DecidableEq, Repr

/-- Roster lookup by detected code. -/
def findParticipant (roster : List Participant) (c : String) :
    Option Participant :=
  roster.find? fun p => p.qrCode == c

/-- Append a photo to the group with the given key, creating the group
(at the end, in encounter order) when it does not exist yet — so a
group exists only once a first photo is attributed to it. -/
def addToGroup (gs : List (String × List PhotoRecord)) (key : String)
    (ph : PhotoRecord) : List (String × List PhotoRecord) :=
  match gs with
  | [] => [(key, [ph])]
  | (k, ps) :: rest =>
    if k = key then (k, ps ++ [ph]) :: rest
    else (k, ps) :: addToGroup rest key ph

/-- Modelled from the spec: one step of the Correlation Engine loop
(spec §4.2; the implementation lives in the external Python worker
`src/python/main.py`, which is not part of the source snapshot).  A
photo whose detected code matches a roster qrCode moves the cursor to
that participant and joins that group; a detected code absent from the
roster routes the photo to ungrouped with reason
`"qr code not in roster"`, cursor unchanged; a photo with no code joins
the group of the current participant when the cursor is set and is
otherwise routed to ungrouped with reason
`"no participant context yet"`. -/
def correlateStep (roster : List Participant) (st : CorrState)
    (ph : PhotoRecord) : CorrState :=
  match ph.detectedCode with
  | some c =>
    match findParticipant roster c with
    | some p =>
      { st with groups := addToGroup st.groups p.qrCode ph, current := some p }
    | none =>
      { st with ungrouped :=
          st.ungrouped ++ [{ ph with reason := some "qr code not in roster" }] }
  | none =>
    match st.current with
    | some p => { st with groups := addToGroup st.groups p.qrCode ph }
    | none =>
      { st with ungrouped :=
          st.ungrouped ++ [{ ph with reason := some "no participant context yet" }] }

/-- Stable insertion by capture order (the defensive re-sort of spec
§4.2 step 1). -/
def insertByCapture (ph : PhotoRecord) : List PhotoRecord → List PhotoRecord
  | [] => [ph]
  | q :: rest =>
    if ph.captureOrder ≤ q.captureOrder then ph :: q :: rest
    else q :: insertByCapture ph rest

/-- Sort photo records by `captureOrder` (stable insertion sort). -/
def sortByCapture : List PhotoRecord → List PhotoRecord
  | [] => []
  | ph :: rest => insertByCapture ph (sortByCapture rest)

/-- Modelled from the spec: the whole Correlation Engine (spec §4.2) —
defensively re-sort by capture order, then fold the step function from
the empty state with an unset cursor. -/
def correlate (detections : List PhotoRecord) (roster : List Participant) :
    CorrState :=
  (sortByCapture detections).foldl (correlateStep roster) ⟨[], [], none⟩

/-! ## Helper lemmas -/

theorem length_filter_add_length_filter_not {α : Type} (p : α → Bool)
    (l : List α) :
    (l.filter p).length + (l.filter fun a => !(p a)).length = l.length := by
  induction l with
  | nil => rfl
  | cons a t ih => by_cases h : p a = true <;> simp [List.filter_cons, h] <;> omega

theorem filter_idem {α : Type} (p : α → Bool) (l : List α) :
    (l.filter p).filter p = l.filter p := by
  induction l with
  | nil => rfl
  | cons a t ih => by_cases h : p a = true <;> simp [List.filter_cons, h, ih]

theorem filter_of_filter_not {α : Type} (p : α → Bool) (l : List α) :
    (l.filter fun a => !(p a)).filter p = [] := by
  induction l with
  | nil => rfl
  | cons a t ih => by_cases h : p a = true <;> simp [List.filter_cons, h, ih]

theorem sumGroupSizes_setGroupPhotos {gs : List (String × List RPhoto)}
    {key : String} {v : List RPhoto} (w : List RPhoto)
    (h : lookupGroup gs key = some v) :
    sumGroupSizes (setGroupPhotos gs key w) + v.length
      = sumGroupSizes gs + w.length := by
  induction gs with
  | nil => simp [lookupGroup] at h
  | cons hd tl ih =>
    obtain ⟨k, ps⟩ := hd
    by_cases hk : k = key
    · simp [lookupGroup, hk] at h
      subst h
      simp [setGroupPhotos, hk, sumGroupSizes]
      omega
    · simp [lookupGroup, hk] at h
      have := ih h
      simp [setGroupPhotos, hk, sumGroupSizes]
      omega

theorem lookupGroup_setGroupPhotos_self {gs : List (String × List RPhoto)}
    {key : String} {v : List RPhoto} (w : List RPhoto)
    (h : lookupGroup gs key = some v) :
    lookupGroup (setGroupPhotos gs key w) key = some w := by
  induction gs with
  | nil => simp [lookupGroup] at h
  | cons hd tl ih =>
    obtain ⟨k, ps⟩ := hd
    by_cases hk : k = key
    · simp [setGroupPhotos, hk, lookupGroup]
    · simp [lookupGroup, hk] at h
      simp [setGroupPhotos, hk, lookupGroup, ih h]

theorem lookupGroup_setGroupPhotos_ne {gs : List (String × List RPhoto)}
    {key k : String} (w : List RPhoto) (hk : k ≠ key) :
    lookupGroup (setGroupPhotos gs key w) k = lookupGroup gs k := by
  induction gs with
  | nil => simp [setGroupPhotos]
  | cons hd tl ih =>
    obtain ⟨k', ps⟩ := hd
    by_cases hk' : k' = key
    · subst hk'
      have : ¬ k' = k := fun hc => hk (hc ▸ rfl)
      simp [setGroupPhotos, lookupGroup, this]
    · by_cases hkk : k' = k
      · subst hkk
        simp [setGroupPhotos, hk', lookupGroup]
      · simp [setGroupPhotos, hk', lookupGroup, hkk, ih]

theorem setGroupPhotos_setGroupPhotos (gs : List (String × List RPhoto))
    (key : String) (w w' : List RPhoto) :
    setGroupPhotos (setGroupPhotos gs key w) key w'
      = setGroupPhotos gs key w' := by
  induction gs with
  | nil => simp [setGroupPhotos]
  | cons hd tl ih =>
    obtain ⟨k, ps⟩ := hd
    by_cases hk : k = key <;> simp [setGroupPhotos, hk, ih]

/-! ## Claim theorems -/

/-- C9: for every database state, project id and results object,
`saveProcessingResults` returns `{success: false}` and persists
nothing: the INSERT names columns (`total_photos`, `grouped_photos`,
`processing_time`, `results_data`, ...) that do not exist in the
`processing_results` table created by `createTables`, so the write
always errors and the caught error leaves the database untouched. -/
theorem saveProcessingResults_always_fails (db : Database) (projectId : Nat)
    (results : ProcResultsInput) :
    (saveProcessingResults db projectId results).2.success = false ∧
    (saveProcessingResults db projectId results).1 = db := by
  have hmap : ((saveProcessingInsertColumns.zip
      [toString projectId, results.totalImages, results.qrDetected,
       results.groupedPhotos, results.ungroupedPhotos,
       results.processingTime, results.detailedResults]).map Prod.fst)
      = saveProcessingInsertColumns := by
    apply List.map_fst_zip
    simp [saveProcessingInsertColumns]
  have hall : saveProcessingInsertColumns.all
      (fun c => processingResultsColumns.contains c) = false := by decide
  unfold saveProcessingResults insertProcessingResults
  rw [hmap, hall]
  simp

/-- C4 counterexample: with an empty participant list and missing
source and destination folders, `process-photos` does not fail with a
validation error: it still writes the config file first and then
spawns the worker. -/
theorem processPhotos_no_validation_cex :
    (ProcessConfig.mk none none [] none).participants = [] ∧
    processPhotosPreSpawnTrace (ProcessConfig.mk none none [] none) true
      = [.writeConfigFile (ProcessConfig.mk none none [] none),
         .spawnWorker] := by
  constructor <;> rfl

/-- C4 amended: `process-photos` performs no input validation at all —
for every config, including one with empty `participants` or missing
folders, the first action is always the config-file write, and the
worker is spawned exactly when that write succeeds. -/
theorem processPhotos_writes_config_then_spawns (cfg : ProcessConfig)
    (writeOk : Bool) :
    (processPhotosPreSpawnTrace cfg writeOk).head?
      = some (.writeConfigFile cfg) ∧
    (OrchestratorAction.spawnWorker ∈ processPhotosPreSpawnTrace cfg writeOk
      ↔ writeOk = true) := by
  cases writeOk <;> simp [processPhotosPreSpawnTrace]

/-- C4 amended witness: on a concrete config whose write succeeds, the
first action is the config write and the worker is spawned. -/
theorem processPhotos_writes_config_then_spawns_witness :
    (processPhotosPreSpawnTrace
        (ProcessConfig.mk (some "s") (some "d") [] none) true).head?
      = some (.writeConfigFile
        (ProcessConfig.mk (some "s") (some "d") [] none)) ∧
    (OrchestratorAction.spawnWorker ∈ processPhotosPreSpawnTrace
        (ProcessConfig.mk (some "s") (some "d") [] none) true
      ↔ true = true) :=
  processPhotos_writes_config_then_spawns
    (ProcessConfig.mk (some "s") (some "d") [] none) true

theorem handleMove_eq {st : ResultsState} {key : String}
    {photos : List RPhoto}
    (hkey : st.editingGroupKey = some key)
    (hsel : st.selectedGroupPhotos ≠ [])
    (hlook : lookupGroup st.groupsState key = some photos) :
    handleMoveSelectedToUngrouped st =
      { editingGroupKey := none
        selectedGroupPhotos := []
        groupsState := setGroupPhotos st.groupsState key
          (photos.filter fun p => !(selFind st.selectedGroupPhotos p))
        ungroupedPhotos :=
          (photos.filter fun p => selFind st.selectedGroupPhotos p)
            ++ st.ungroupedPhotos } := by
  have hlen : ¬ st.selectedGroupPhotos.length = 0 := by
    simpa [List.length_eq_zero] using hsel
  simp [handleMoveSelectedToUngrouped, hkey, hlen, hlook]

/-- C1: `handleMoveSelectedToUngrouped` conserves the total photo count
`|ungrouped| + Σ |group.photos|`: the photos of the named group that
match the selection are removed from exactly that group and prepended
to the ungrouped list, and the photo list of every other group is
unchanged. -/
theorem moveToUngrouped_conservation (st : ResultsState) (key : String)
    (photos : List RPhoto)
    (hkey : st.editingGroupKey = some key)
    (hsel : st.selectedGroupPhotos ≠ [])
    (hlook : lookupGroup st.groupsState key = some photos) :
    totalPhotoCount (handleMoveSelectedToUngrouped st) = totalPhotoCount st ∧
    (handleMoveSelectedToUngrouped st).ungroupedPhotos
      = (photos.filter fun p => selFind st.selectedGroupPhotos p)
        ++ st.ungroupedPhotos ∧
    lookupGroup (handleMoveSelectedToUngrouped st).groupsState key
      = some (photos.filter fun p => !(selFind st.selectedGroupPhotos p)) ∧
    ∀ k, k ≠ key →
      lookupGroup (handleMoveSelectedToUngrouped st).groupsState k
        = lookupGroup st.groupsState k := by
  rw [handleMove_eq hkey hsel hlook]
  refine ⟨?_, rfl, lookupGroup_setGroupPhotos_self _ hlook,
    fun k hk => lookupGroup_setGroupPhotos_ne _ hk⟩
  have h1 := sumGroupSizes_setGroupPhotos
    (photos.filter fun p => !(selFind st.selectedGroupPhotos p)) hlook
  have h2 := length_filter_add_length_filter_not
    (fun p => selFind st.selectedGroupPhotos p) photos
  simp only [totalPhotoCount, List.length_append]
  omega

/-- C1 witness: the hypotheses hold of the concrete sample state, and
the conservation law evaluates there. -/
theorem moveToUngrouped_conservation_witness :
    sampleMoveState.editingGroupKey = some "k" ∧
    sampleMoveState.selectedGroupPhotos ≠ [] ∧
    lookupGroup sampleMoveState.groupsState "k" = some [rA, rB] ∧
    totalPhotoCount (handleMoveSelectedToUngrouped sampleMoveState)
      = totalPhotoCount sampleMoveState :=
  ⟨rfl, by decide, by decide,
   (moveToUngrouped_conservation sampleMoveState "k" [rA, rB] rfl
     (by decide) (by decide)).1⟩

/-- C7: calling `handleMoveSelectedToUngrouped` with an empty selection
is a no-op (the state, hence also the ungrouped list, is unchanged —
nothing is moved), and after a first successful call, a second call
with the same selection over the same group moves nothing: the selected
items are no longer in the group, so the ungrouped list and the groups
map are left exactly as the first call produced them — no photo is
duplicated in ungrouped. -/
theorem move_empty_noop_and_second_call (st : ResultsState) (key : String)
    (photos : List RPhoto)
    (hkey : st.editingGroupKey = some key)
    (hsel : st.selectedGroupPhotos ≠ [])
    (hlook : lookupGroup st.groupsState key = some photos) :
    (∀ st0 : ResultsState, st0.selectedGroupPhotos = [] →
      handleMoveSelectedToUngrouped st0 = st0) ∧
    (handleMoveSelectedToUngrouped
        { handleMoveSelectedToUngrouped st with
            editingGroupKey := some key
            selectedGroupPhotos := st.selectedGroupPhotos }).ungroupedPhotos
      = (handleMoveSelectedToUngrouped st).ungroupedPhotos ∧
    (handleMoveSelectedToUngrouped
        { handleMoveSelectedToUngrouped st with
            editingGroupKey := some key
            selectedGroupPhotos := st.selectedGroupPhotos }).groupsState
      = (handleMoveSelectedToUngrouped st).groupsState := by
  have hempty : ∀ st0 : ResultsState, st0.selectedGroupPhotos = [] →
      handleMoveSelectedToUngrouped st0 = st0 := by
    intro st0 h0
    cases hek : st0.editingGroupKey <;>
      simp [handleMoveSelectedToUngrouped, hek, h0]
  have h1 := handleMove_eq hkey hsel hlook
  have hlook2 : lookupGroup (handleMoveSelectedToUngrouped st).groupsState key
      = some (photos.filter fun p => !(selFind st.selectedGroupPhotos p)) := by
    rw [h1]
    exact lookupGroup_setGroupPhotos_self _ hlook
  have h2 := @handleMove_eq
    { handleMoveSelectedToUngrouped st with
        editingGroupKey := some key
        selectedGroupPhotos := st.selectedGroupPhotos }
    key (photos.filter fun p => !(selFind st.selectedGroupPhotos p))
    rfl hsel hlook2
  refine ⟨hempty, ?_, ?_⟩
  · rw [h2]
    simp [h1, filter_of_filter_not]
  · rw [h2]
    simp [h1, filter_idem, setGroupPhotos_setGroupPhotos]

/-- C7 witness: on the sample state, an empty selection is a no-op and
the second call with the same selection changes neither the ungrouped
list nor the groups map. -/
theorem move_empty_noop_and_second_call_witness :
    handleMoveSelectedToUngrouped
        ⟨some "k", [], sampleMoveState.groupsState, []⟩
      = ⟨some "k", [], sampleMoveState.groupsState, []⟩ ∧
    (handleMoveSelectedToUngrouped
        { handleMoveSelectedToUngrouped sampleMoveState with
            editingGroupKey := some "k"
            selectedGroupPhotos := sampleMoveState.selectedGroupPhotos }).ungroupedPhotos
      = (handleMoveSelectedToUngrouped sampleMoveState).ungroupedPhotos ∧
    (handleMoveSelectedToUngrouped
        { handleMoveSelectedToUngrouped sampleMoveState with
            editingGroupKey := some "k"
            selectedGroupPhotos := sampleMoveState.selectedGroupPhotos }).groupsState
      = (handleMoveSelectedToUngrouped sampleMoveState).groupsState := by
  have h := move_empty_noop_and_second_call sampleMoveState "k" [rA, rB]
    rfl (by decide) (by decide)
  exact ⟨h.1 _ rfl, h.2.1, h.2.2⟩

/-- C3: in the Correlation Engine, a photo whose detected code matches
no roster qrCode is routed to ungrouped with reason
`"qr code not in roster"` and leaves the current-participant cursor
unchanged (the resulting state differs from the input state only in the
ungrouped list); a photo with no detected code is appended to the group
of the current participant when the cursor is set, and is otherwise
routed to ungrouped with reason `"no participant context yet"`. -/
theorem correlateStep_routing (roster : List Participant) (st : CorrState)
    (ph : PhotoRecord) :
    (∀ c, ph.detectedCode = some c → findParticipant roster c = none →
      correlateStep roster st ph
        = { st with ungrouped := st.ungrouped
            ++ [{ ph with reason := some "qr code not in roster" }] }) ∧
    (ph.detectedCode = none → ∀ p, st.current = some p →
      correlateStep roster st ph
        = { st with groups := addToGroup st.groups p.qrCode ph }) ∧
    (ph.detectedCode = none → st.current = none →
      correlateStep roster st ph
        = { st with ungrouped := st.ungrouped
            ++ [{ ph with reason := some "no participant context yet" }] }) := by
  refine ⟨?_, ?_, ?_⟩
  · intro c hc hfind
    simp [correlateStep, hc, hfind]
  · intro hc p hcur
    simp [correlateStep, hc, hcur]
  · intro hc hcur
    simp [correlateStep, hc, hcur]

/-- C3 witness: a detected code `"QR999"` absent from a one-entry
roster sends that photo to ungrouped with reason
`"qr code not in roster"` and leaves the unset cursor unchanged; a
code-less photo with no participant context goes to ungrouped with
reason `"no participant context yet"`. -/
theorem correlateStep_routing_witness :
    correlateStep [⟨"Ana", "1A", "QR001"⟩] ⟨[], [], none⟩
        ⟨"p1.jpg", 1, some "QR999", none, none⟩
      = ⟨[], [⟨"p1.jpg", 1, some "QR999", none,
              some "qr code not in roster"⟩], none⟩ ∧
    correlateStep [⟨"Ana", "1A", "QR001"⟩] ⟨[], [], none⟩
        ⟨"p2.jpg", 2, none, none, none⟩
      = ⟨[], [⟨"p2.jpg", 2, none, none,
              some "no participant context yet"⟩], none⟩ := by
  constructor
  · have h := (correlateStep_routing [⟨"Ana", "1A", "QR001"⟩] ⟨[], [], none⟩
      ⟨"p1.jpg", 1, some "QR999", none, none⟩).1 "QR999" rfl (by decide)
    simpa using h
  · have h := (correlateStep_routing [⟨"Ana", "1A", "QR001"⟩] ⟨[], [], none⟩
      ⟨"p2.jpg", 2, none, none, none⟩).2.2 rfl rfl
    simpa using h

/-- C5: when the worker exits with code 0 but the captured stdout holds
no parseable payload between the two sentinel lines (no sentinel match,
an empty capture, or a capture the JSON parser rejects), the `close`
handler resolves — every branch of `onClose` resolves rather than
throwing — to an error result that carries the full captured raw
output. -/
theorem onClose_exit_zero_without_payload (parseOk : String → Bool)
    (output errorData : String)
    (h : ∀ s, extractSentinelPayload output = some s →
      s = "" ∨ parseOk (jsTrim s) = false) :
    (onClose parseOk 0 output errorData).isError = true ∧
    (onClose parseOk 0 output errorData).raw = some output := by
  unfold onClose
  cases hE : extractSentinelPayload output with
  | none => simp [CloseResult.isError, CloseResult.raw]
  | some s =>
    by_cases h0 : s = ""
    · simp [h0, CloseResult.isError, CloseResult.raw]
    · rcases h s hE with h1 | h1
      · exact absurd h1 h0
      · simp [h0, h1, CloseResult.isError, CloseResult.raw]

/-- C5 witness: stdout `"spam"` carries no sentinel markers at all, so
the run resolves to an error result with `raw_output = "spam"`. -/
theorem onClose_exit_zero_without_payload_witness :
    (onClose (fun _ => false) 0 "spam" "").isError = true ∧
    (onClose (fun _ => false) 0 "spam" "").raw = some "spam" :=
  onClose_exit_zero_without_payload (fun _ => false) "spam" ""
    (by
      intro s hs
      rw [show extractSentinelPayload "spam" = none from by decide] at hs
      cases hs)

theorem assignLoop_mem (copyOk : String → Bool) (folder : String)
    (photos : List PhotoArg) :
    ∀ p ∈ photos, ∀ sp, resolveAssign p = some sp →
      (copyOk sp = true →
        (sp, pathJoin folder (basename sp))
          ∈ (assignLoop copyOk folder photos).1) ∧
      (copyOk sp = false → sp ∈ (assignLoop copyOk folder photos).2) := by
  induction photos with
  | nil => intro p hp; cases hp
  | cons q rest ih =>
    intro p hp sp hsp
    rcases List.mem_cons.mp hp with rfl | hmem
    · constructor
      · intro hc
        simp [assignLoop, hsp, hc]
      · intro hc
        simp [assignLoop, hsp, hc]
    · have h := ih p hmem sp hsp
      cases hq : resolveAssign q with
      | none =>
        constructor
        · intro hc
          simpa [assignLoop, hq] using h.1 hc
        · intro hc
          simpa [assignLoop, hq] using h.2 hc
      | some sq =>
        by_cases hcq : copyOk sq = true
        · constructor
          · intro hc
            simp [assignLoop, hq, hcq]
            exact Or.inr (h.1 hc)
          · intro hc
            simpa [assignLoop, hq, hcq] using h.2 hc
        · constructor
          · intro hc
            simpa [assignLoop, hq, hcq] using h.1 hc
          · intro hc
            simp [assignLoop, hq, hcq]
            exact Or.inr (h.2 hc)

theorem assignLoop_length (copyOk : String → Bool) (folder : String)
    (photos : List PhotoArg) :
    (assignLoop copyOk folder photos).1.length
      + (assignLoop copyOk folder photos).2.length
      = (photos.filter fun p => (resolveAssign p).isSome).length := by
  induction photos with
  | nil => rfl
  | cons q rest ih =>
    cases hq : resolveAssign q with
    | none => simpa [assignLoop, hq, List.filter_cons] using ih
    | some sq =>
      by_cases hc : copyOk sq = true <;>
        simp [assignLoop, hq, hc, List.filter_cons] <;> omega

theorem assignLoop_errors_nil (copyOk : String → Bool) (folder : String)
    (photos : List PhotoArg)
    (h : ∀ p ∈ photos, ∀ sp, resolveAssign p = some sp → copyOk sp = true) :
    (assignLoop copyOk folder photos).2 = [] := by
  induction photos with
  | nil => rfl
  | cons q rest ih =>
    have hrest : (assignLoop copyOk folder rest).2 = [] :=
      ih fun p hp sp hsp => h p (List.mem_cons_of_mem _ hp) sp hsp
    cases hq : resolveAssign q with
    | none => simpa [assignLoop, hq] using hrest
    | some sq =>
      have hc : copyOk sq = true := h q (List.mem_cons_self _ _) sq hq
      simpa [assignLoop, hq, hc] using hrest

/-- C2 counterexample: with two selected photos `"A"` and `"B"` where
only the copy of `"A"` succeeds, the handler reports the successful
copy of `"A"` in `moved` and overall failure, and the renderer then
removes nothing from the ungrouped list — so photo `"A"`, whose own
copy succeeded, remains in `ungrouped`, contradicting per-item
removal-on-success. -/
theorem assign_partial_failure_keeps_copied_cex :
    ("A", "D/P/A") ∈ (assignPhotosToParticipant (fun s => s == "A") "D" "P"
        [.str "A", .str "B"]).moved ∧
    (assignPhotosToParticipant (fun s => s == "A") "D" "P"
        [.str "A", .str "B"]).success = false ∧
    handleAssignPhotos (fun s => s == "A") [.str "A", .str "B"]
        [.str "A", .str "B"] (some "P") "D" = [.str "A", .str "B"] ∧
    PhotoArg.str "A" ∈ handleAssignPhotos (fun s => s == "A")
        [.str "A", .str "B"] [.str "A", .str "B"] (some "P") "D" := by
  refine ⟨?_, ?_, ?_, ?_⟩ <;> decide

/-- C2 amended: removal from `ungrouped` is all-or-nothing per batch,
not per item: the handler collects a per-item error (the resolved path)
for each failed copy and reports `success` exactly when the error list
is empty; the renderer removes the selected photos from `ungrouped`
only when the whole batch succeeded, and on any failure removes
nothing — items whose copy succeeded then remain in `ungrouped`. -/
theorem assign_removal_all_or_nothing (copyOk : String → Bool)
    (ungrouped selected : List PhotoArg) (participant destFolder : String) :
    ((assignPhotosToParticipant copyOk destFolder participant selected).success
        = true →
      handleAssignPhotos copyOk ungrouped selected (some participant) destFolder
        = ungrouped.filter fun p => !(selected.contains p)) ∧
    ((assignPhotosToParticipant copyOk destFolder participant selected).success
        = false →
      handleAssignPhotos copyOk ungrouped selected (some participant) destFolder
        = ungrouped) ∧
    ((assignPhotosToParticipant copyOk destFolder participant selected).success
        = true
      ↔ (assignPhotosToParticipant copyOk destFolder participant selected).errors
        = []) ∧
    (∀ p ∈ selected, ∀ sp, resolveAssign p = some sp → copyOk sp = false →
      sp ∈ (assignPhotosToParticipant copyOk destFolder participant
        selected).errors) := by
  refine ⟨?_, ?_, ?_, ?_⟩
  · intro hs
    by_cases hsel : selected.length = 0
    · have hnil : selected = [] := List.length_eq_zero.mp hsel
      subst hnil
      simp [handleAssignPhotos]
    · simp [handleAssignPhotos, hsel, hs]
  · intro hs
    by_cases hsel : selected.length = 0
    · simp [handleAssignPhotos, hsel]
    · simp [handleAssignPhotos, hsel, hs]
  · simp [assignPhotosToParticipant, List.isEmpty_iff]
  · intro p hp sp hsp hc
    exact (assignLoop_mem copyOk (pathJoin destFolder participant) selected
      p hp sp hsp).2 hc

/-- C2 amended witness: at the counterexample input, the batch fails,
`"B"` is reported in `errors`, and the ungrouped list is unchanged. -/
theorem assign_removal_all_or_nothing_witness :
    handleAssignPhotos (fun s => s == "A") [.str "A", .str "B"]
        [.str "A", .str "B"] (some "P") "D" = [.str "A", .str "B"] ∧
    "B" ∈ (assignPhotosToParticipant (fun s => s == "A") "D" "P"
        [.str "A", .str "B"]).errors := by
  have h := assign_removal_all_or_nothing (fun s => s == "A")
    [.str "A", .str "B"] [.str "A", .str "B"] "P" "D"
  exact ⟨h.2.1 (by decide),
    h.2.2.2 (.str "B") (by decide) "B" rfl (by decide)⟩

theorem saveUngroupedLoop_mem (copyOk : String → Bool) (folder : String)
    (photos : List PhotoArg) :
    ∀ p ∈ photos, ∀ sp, resolveUngrouped p = some sp →
      (copyOk sp = true →
        (sp, pathJoin folder (basename sp))
          ∈ (saveUngroupedLoop copyOk folder photos).1) ∧
      (copyOk sp = false → p ∈ (saveUngroupedLoop copyOk folder photos).2) := by
  induction photos with
  | nil => intro p hp; cases hp
  | cons q rest ih =>
    intro p hp sp hsp
    rcases List.mem_cons.mp hp with rfl | hmem
    · constructor
      · intro hc
        simp [saveUngroupedLoop, hsp, hc]
      · intro hc
        simp [saveUngroupedLoop, hsp, hc]
    · have h := ih p hmem sp hsp
      cases hq : resolveUngrouped q with
      | none =>
        constructor
        · intro hc
          simpa [saveUngroupedLoop, hq] using h.1 hc
        · intro hc
          simpa [saveUngroupedLoop, hq] using h.2 hc
      | some sq =>
        by_cases hcq : copyOk sq = true
        · constructor
          · intro hc
            simp [saveUngroupedLoop, hq, hcq]
            exact Or.inr (h.1 hc)
          · intro hc
            simpa [saveUngroupedLoop, hq, hcq] using h.2 hc
        · constructor
          · intro hc
            simpa [saveUngroupedLoop, hq, hcq] using h.1 hc
          · intro hc
            simp [saveUngroupedLoop, hq, hcq]
            exact Or.inr (h.2 hc)

theorem saveUngroupedLoop_length (copyOk : String → Bool) (folder : String)
    (photos : List PhotoArg) :
    (saveUngroupedLoop copyOk folder photos).1.length
      + (saveUngroupedLoop copyOk folder photos).2.length
      = (photos.filter fun p => (resolveUngrouped p).isSome).length := by
  induction photos with
  | nil => rfl
  | cons q rest ih =>
    cases hq : resolveUngrouped q with
    | none => simpa [saveUngroupedLoop, hq, List.filter_cons] using ih
    | some sq =>
      by_cases hc : copyOk sq = true <;>
        simp [saveUngroupedLoop, hq, hc, List.filter_cons] <;> omega

theorem saveUngroupedLoop_errors_nil (copyOk : String → Bool)
    (folder : String) (photos : List PhotoArg)
    (h : ∀ p ∈ photos, ∀ sp, resolveUngrouped p = some sp →
      copyOk sp = true) :
    (saveUngroupedLoop copyOk folder photos).2 = [] := by
  induction photos with
  | nil => rfl
  | cons q rest ih =>
    have hrest : (saveUngroupedLoop copyOk folder rest).2 = [] :=
      ih fun p hp sp hsp => h p (List.mem_cons_of_mem _ hp) sp hsp
    cases hq : resolveUngrouped q with
    | none => simpa [saveUngroupedLoop, hq] using hrest
    | some sq =>
      have hc : copyOk sq = true := h q (List.mem_cons_self _ _) sq hq
      simpa [saveUngroupedLoop, hq, hc] using hrest

theorem saveUngroupedLoop_errors_resolvable (copyOk : String → Bool)
    (folder : String) (photos : List PhotoArg) :
    ∀ x ∈ (saveUngroupedLoop copyOk folder photos).2,
      (resolveUngrouped x).isSome = true := by
  induction photos with
  | nil => intro x hx; cases hx
  | cons q rest ih =>
    intro x hx
    cases hq : resolveUngrouped q with
    | none =>
      exact ih x (by simpa [saveUngroupedLoop, hq] using hx)
    | some sq =>
      by_cases hc : copyOk sq = true
      · exact ih x (by simpa [saveUngroupedLoop, hq, hc] using hx)
      · rw [saveUngroupedLoop] at hx
        simp [hq, hc] at hx
        rcases hx with rfl | hx
        · simp [hq]
        · exact ih x hx

/-- C6: for every destination folder, event name, copy oracle and photo
list, `save-ungrouped-photos` returns a full result in which `success`
holds exactly when the collected error list is empty, and every photo
with a resolvable source path is accounted for individually: a
successful copy puts `(source, <dest>/<eventName>/Não Agrupadas/<basename>)`
into `moved` and a failed copy puts a per-item error into `errors` —
independently of the other items, so one failure neither aborts the
remaining copies nor rolls back copies already made. -/
theorem saveUngrouped_per_item_accounting (copyOk : String → Bool)
    (d : String) (eventName : Option String) (photos : List PhotoArg)
    (r : SaveResults)
    (hr : saveUngroupedPhotos copyOk (some d) eventName photos = .ok r) :
    (r.success = true ↔ r.errors = []) ∧
    ∀ p ∈ photos, ∀ sp, resolveUngrouped p = some sp →
      (copyOk sp = true →
        (sp, pathJoin (ungroupedDest d eventName) (basename sp)) ∈ r.moved) ∧
      (copyOk sp = false → p ∈ r.errors) := by
  have hr' : r = SaveResults.mk
      (saveUngroupedLoop copyOk (ungroupedDest d eventName) photos).2.isEmpty
      (saveUngroupedLoop copyOk (ungroupedDest d eventName) photos).1
      (saveUngroupedLoop copyOk (ungroupedDest d eventName) photos).2 := by
    have := hr
    simp [saveUngroupedPhotos] at this
    exact this.symm
  subst hr'
  refine ⟨by simp [List.isEmpty_iff], ?_⟩
  exact saveUngroupedLoop_mem copyOk (ungroupedDest d eventName) photos

/-- C6 witness: with destination `"D"`, default event name, photos
`"A"` (copy succeeds) and `"B"` (copy fails), `success` is false, the
copy of `"A"` is recorded in `moved` and `"B"` is a per-item error. -/
theorem saveUngrouped_per_item_accounting_witness :
    (((saveUngroupedLoop (fun s => s == "A")
        (ungroupedDest "D" none) [.str "A", .str "B"]).2.isEmpty = true)
      ↔ ((saveUngroupedLoop (fun s => s == "A")
        (ungroupedDest "D" none) [.str "A", .str "B"]).2 = [])) ∧
    ("A", pathJoin (ungroupedDest "D" none) (basename "A"))
      ∈ (saveUngroupedLoop (fun s => s == "A")
        (ungroupedDest "D" none) [.str "A", .str "B"]).1 ∧
    PhotoArg.str "B" ∈ (saveUngroupedLoop (fun s => s == "A")
        (ungroupedDest "D" none) [.str "A", .str "B"]).2 := by
  have h := saveUngrouped_per_item_accounting (fun s => s == "A") "D" none
    [.str "A", .str "B"] _ rfl
  refine ⟨h.1, ?_, ?_⟩
  · exact (h.2 (.str "A") (by decide) "A" rfl).1 (by decide)
  · exact (h.2 (.str "B") (by decide) "B" rfl).2 (by decide)

/-- C10: in both copy handlers, an input entry with no resolvable
source path is silently skipped: the `moved` and `errors` lists
together account for exactly the entries with a resolvable path, a
pathless entry never appears in the error list, and when every
resolvable entry copies successfully the operation reports
`success: true` even though the skipped entries were copied nowhere. -/
theorem pathless_photos_silently_skipped (copyOk : String → Bool)
    (photos : List PhotoArg) (d participant : String)
    (eventName : Option String) (r : SaveResults)
    (hr : saveUngroupedPhotos copyOk (some d) eventName photos = .ok r) :
    (assignPhotosToParticipant copyOk d participant photos).moved.length
      + (assignPhotosToParticipant copyOk d participant photos).errors.length
      = (photos.filter fun p => (resolveAssign p).isSome).length ∧
    ((∀ p ∈ photos, ∀ sp, resolveAssign p = some sp → copyOk sp = true) →
      (assignPhotosToParticipant copyOk d participant photos).success
        = true) ∧
    r.moved.length + r.errors.length
      = (photos.filter fun p => (resolveUngrouped p).isSome).length ∧
    (∀ p, resolveUngrouped p = none → p ∉ r.errors) ∧
    ((∀ p ∈ photos, ∀ sp, resolveUngrouped p = some sp → copyOk sp = true) →
      r.success = true) := by
  have hr' : r = SaveResults.mk
      (saveUngroupedLoop copyOk (ungroupedDest d eventName) photos).2.isEmpty
      (saveUngroupedLoop copyOk (ungroupedDest d eventName) photos).1
      (saveUngroupedLoop copyOk (ungroupedDest d eventName) photos).2 := by
    have := hr
    simp [saveUngroupedPhotos] at this
    exact this.symm
  subst hr'
  refine ⟨?_, ?_, ?_, ?_, ?_⟩
  · simpa [assignPhotosToParticipant] using
      assignLoop_length copyOk (pathJoin d participant) photos
  · intro h
    simp [assignPhotosToParticipant,
      assignLoop_errors_nil copyOk (pathJoin d participant) photos h]
  · exact saveUngroupedLoop_length copyOk (ungroupedDest d eventName) photos
  · intro p hp hmem
    have := saveUngroupedLoop_errors_resolvable copyOk
      (ungroupedDest d eventName) photos p hmem
    rw [hp] at this
    cases this
  · intro h
    simp [saveUngroupedLoop_errors_nil copyOk (ungroupedDest d eventName)
      photos h]

/-- C10 witness: a pathless object entry alongside `"A"` with all
copies succeeding — both handlers account for one photo only (the
accounting covers fewer photos than the two passed in), the pathless
entry is in no error list, and both operations report success. -/
theorem pathless_photos_silently_skipped_witness :
    (assignPhotosToParticipant (fun _ => true) "D" "P"
        [.obj none none, .str "A"]).moved.length
      + (assignPhotosToParticipant (fun _ => true) "D" "P"
        [.obj none none, .str "A"]).errors.length
      = ([PhotoArg.obj none none, .str "A"].filter
          fun p => (resolveAssign p).isSome).length ∧
    (assignPhotosToParticipant (fun _ => true) "D" "P"
        [.obj none none, .str "A"]).success = true ∧
    ([PhotoArg.obj none none, .str "A"].filter
        fun p => (resolveAssign p).isSome).length = 1 ∧
    ([PhotoArg.obj none none, PhotoArg.str "A"] : List PhotoArg).length
      = 2 := by
  have h := pathless_photos_silently_skipped (fun _ => true)
    [.obj none none, .str "A"] "D" "P" none _ rfl
  exact ⟨h.1, h.2.1 (fun p hp sp hsp => rfl), by decide, by decide⟩

/-- C8 counterexample: the percentages are not worker-supplied but
fixed per line class by the stderr classifier, and they are not
monotone: a chunk containing `Step 2:` followed by a chunk containing
`QR detected` yields the percentage sequence `[50, 25]`, which
decreases. -/
theorem stderr_percentages_not_monotone_cex :
    (processStderrChunks
        ["Step 2: Grouping photos", "QR detected in IMG_001.jpg"]).filterMap
      ProgressEvent.percentage = [50, 25] ∧
    ¬ List.Chain' (· ≤ ·)
      ((processStderrChunks
        ["Step 2: Grouping photos", "QR detected in IMG_001.jpg"]).filterMap
        ProgressEvent.percentage) := by
  have hev : (processStderrChunks
      ["Step 2: Grouping photos", "QR detected in IMG_001.jpg"]).filterMap
      ProgressEvent.percentage = [50, 25] := by decide
  refine ⟨hev, ?_⟩
  intro hch
  rw [hev] at hch
  have h50 := (List.chain'_cons.mp hch).1
  omega

/-- C8 amended: progress events are emitted in chunk arrival order —
processing a concatenation of stderr chunk sequences emits the
concatenation of their event sequences, with no reordering or
coalescing across chunks — and each event carries a percentage fixed by
its line class, always one of 10, 25, 50, 75 or 85; the percentage
sequence is not guaranteed to be monotonically non-decreasing. -/
theorem progress_order_and_fixed_percentages (xs ys : List String)
    (chunk : String) (e : ProgressEvent)
    (h : classifyStderrChunk chunk = some e) :
    processStderrChunks (xs ++ ys)
      = processStderrChunks xs ++ processStderrChunks ys ∧
    e.percentage ∈ [some 10, some 25, some 50, some 75, some 85] := by
  constructor
  · simp [processStderrChunks]
  · unfold classifyStderrChunk at h
    split_ifs at h <;> cases h <;> simp

/-- C8 amended witness: two singleton chunk lists concatenate in order,
and a `Step 1:` chunk gets the fixed percentage 10. -/
theorem progress_order_and_fixed_percentages_witness :
    processStderrChunks (["Step 1: scan"] ++ ["QR detected x"])
      = processStderrChunks ["Step 1: scan"]
        ++ processStderrChunks ["QR detected x"] ∧
    (ProgressEvent.mk "qr_detection" "Detectando QR codes..."
        (some 10)).percentage
      ∈ [some 10, some 25, some 50, some 75, some 85] :=
  progress_order_and_fixed_percentages ["Step 1: scan"] ["QR detected x"]
    "Step 1: scan" (ProgressEvent.mk "qr_detection" "Detectando QR codes..."
      (some 10)) (by decide)

end PhotoLab
